import Mathlib

/-!
Verification development for the diagnostic-tutor prototype (`main.py`).

The program is embedded shallowly:

* Text is modelled as `List Nat` of Unicode code points (`strN` converts a
  Lean string literal).  Python's `str.lower` is embedded on the ASCII
  range (`pyLower`), which covers every character the detectors' patterns
  can match.
* The two regex patterns of each detector are embedded as deterministic
  parsers over the code-point list.  Both regexes are backtracking-free on
  their alphabet (each optional token differs from the token that must
  follow it, and each `+`-group is delimited by characters outside its
  class), so a single-pass parser computes exactly the `re.fullmatch`
  semantics of the source.
* The optional sympy collaborator (`SYMPY_AVAILABLE`, `sp`) is an external
  library, not part of the repository.  It is modelled as an injected
  capability `Option Sympy` whose two fields abstract the outcome of the
  two `try`-blocks that call it: the cross-term heuristic inside
  `hint_freshman_dream` and the simplify-and-compare step inside
  `analyze_expression` (where `none` stands for a swallowed exception).
* `InteractionLog` methods are state-passing functions; `analyze_expression`
  additionally returns the list of log operations it performed, one entry
  written exactly where the source calls `log.record` / `log.reset`.
-/

namespace DiagnosticTutor

/-- Code points of a Lean string literal; used to write concrete inputs. -/
def strN (s : String) : List Nat :=
  s.data.map Char.toNat

/-- ASCII decimal digit test (`\d` on the inputs in range). -/
def isDigitCode (c : Nat) : Bool :=
  48 ≤ c && c ≤ 57

/-- ASCII lowercase letter test (`[a-z]`). -/
def isLowerAlphaCode (c : Nat) : Bool :=
  97 ≤ c && c ≤ 122

/-- ASCII whitespace code points (space, tab, newline, vertical tab,
form feed, carriage return). -/
def isWhitespaceCode (c : Nat) : Bool :=
  c = 32 || c = 9 || c = 10 || c = 11 || c = 12 || c = 13

/-- ASCII fragment of Python's `str.lower`, per code point. -/
def pyLower (c : Nat) : Nat :=
  if 65 ≤ c ∧ c ≤ 90 then c + 32 else c

/-- Embeds `normalize` from `main.py`: `expr.replace(" ", "").lower()`.
Note the source removes only the space character U+0020, no other
whitespace. -/
def normalize (s : List Nat) : List Nat :=
  (s.filter (fun c => c ≠ 32)).map pyLower

/-- Consume a literal token at the front of the input, or fail. -/
def expects : List Nat → List Nat → Option (List Nat)
  | [], s => some s
  | _ :: _, [] => none
  | t :: ts, c :: s => if c = t then expects ts s else none

/-- Consume one optional character (`\(?`, `\^?`, `\)?` in the regexes):
deterministic because in each use the following mandatory token differs
from the optional one. -/
def optTok (t : Nat) : List Nat → List Nat
  | [] => []
  | c :: s => if c = t then s else c :: s

/-- Numeric value of a digit-code list, as Python's `int` on the matched
group. -/
def natOfDigits (ds : List Nat) : Nat :=
  ds.foldl (fun a c => a * 10 + (c - 48)) 0

/-- Embeds `re.fullmatch(r"d/dx\(?x\^?2\)?=x", compact)` from
`hint_power_rule`. -/
def matchSpecificPower (s : List Nat) : Option Unit := do
  let s ← expects (strN "d/dx") s
  let s := optTok 40 s
  let s ← expects (strN "x") s
  let s := optTok 94 s
  let s ← expects (strN "2") s
  let s := optTok 41 s
  let s ← expects (strN "=x") s
  guard (s = [])

/-- Boolean form of the specific power-rule pattern. -/
def specificPower (s : List Nat) : Bool :=
  (matchSpecificPower s).isSome

/-- Embeds `re.fullmatch(r"d/dx\(?x\^?(\d+)\)?=x\^?(\d+)", compact)` from
`hint_power_rule`, returning the two integer groups. -/
def parseGeneralPower (s : List Nat) : Option (Nat × Nat) := do
  let s ← expects (strN "d/dx") s
  let s := optTok 40 s
  let s ← expects (strN "x") s
  let s := optTok 94 s
  let d1 := s.takeWhile (fun c => isDigitCode c)
  let s := s.dropWhile (fun c => isDigitCode c)
  guard (d1 ≠ [])
  let s := optTok 41 s
  let s ← expects (strN "=x") s
  let s := optTok 94 s
  let d2 := s.takeWhile (fun c => isDigitCode c)
  let s := s.dropWhile (fun c => isDigitCode c)
  guard (d2 ≠ [] ∧ s = [])
  pure (natOfDigits d1, natOfDigits d2)

/-- Embeds
`re.fullmatch(r"\(([a-z]+)\+([a-z]+)\)\^2=([a-z]+)\^2\+([a-z]+)\^2", compact)`
from `hint_freshman_dream`, returning the four identifier groups. -/
def parseGeneralBinom (s : List Nat) :
    Option (List Nat × List Nat × List Nat × List Nat) := do
  let s ← expects (strN "(") s
  let u := s.takeWhile (fun c => isLowerAlphaCode c)
  let s := s.dropWhile (fun c => isLowerAlphaCode c)
  guard (u ≠ [])
  let s ← expects (strN "+") s
  let v := s.takeWhile (fun c => isLowerAlphaCode c)
  let s := s.dropWhile (fun c => isLowerAlphaCode c)
  guard (v ≠ [])
  let s ← expects (strN ")^2=") s
  let p := s.takeWhile (fun c => isLowerAlphaCode c)
  let s := s.dropWhile (fun c => isLowerAlphaCode c)
  guard (p ≠ [])
  let s ← expects (strN "^2+") s
  let q := s.takeWhile (fun c => isLowerAlphaCode c)
  let s := s.dropWhile (fun c => isLowerAlphaCode c)
  guard (q ≠ [])
  let s ← expects (strN "^2") s
  guard (s = [])
  pure (u, v, p, q)

/-- Python string `<` (lexicographic on code points), as used by
`sorted` on the captured identifier groups. -/
def lexLt : List Nat → List Nat → Bool
  | _, [] => false
  | [], _ :: _ => true
  | a :: u, b :: v => a < b || (a = b && lexLt u v)

/-- `sorted([u, v])` for a two-element list: stable, swaps iff `v < u`. -/
def sort2 (u v : List Nat) : List Nat × List Nat :=
  if lexLt v u then (v, u) else (u, v)

/-- Split a raw expression at the first `=`, as `expr.split("=", 1)`
guarded by `"=" in expr`; `none` when the input has no `=`. -/
def splitEq : List Nat → Option (List Nat × List Nat)
  | [] => none
  | c :: rest =>
    if c = 61 then some ([], rest)
    else
      match splitEq rest with
      | some (l, r) => some (c :: l, r)
      | none => none

/-- The `(rule_id, base_hint, escalated_hint)` triple returned by the
specific power-rule pattern. -/
def powerSpecificResult : String × String × String :=
  ("power_rule_missing_coefficient",
   "你似乎忘了冪次前的係數，回想一下 d/dx(x^n) 的前導常數應該是多少？",
   "你持續遺漏冪次求導的前導係數，請完整寫出 d/dx(x^n)=n·x^(n-1) 並檢查每一步。")

/-- The triple returned by the generalized power-rule pattern. -/
def powerGeneralResult : String × String × String :=
  ("power_rule_missing_coefficient",
   "冪次下降時需要把原本的指數乘到前面，確認一下前導係數是否遺漏。",
   "連續遺漏前導係數：請寫出一般公式並逐步帶入 n，確認計算與符號都未省略。")

/-- The triple returned by the literal freshman-dream pattern. -/
def freshmanLiteralResult : String × String × String :=
  ("freshman_dream",
   "請回想二項式展開公式：(a+b)^2 應該包含哪個混合項？",
   "你連續遺漏了二項式的交叉項 2ab，請完整展開並標示每一項係數後再合併。")

/-- The triple returned by the generalized freshman-dream pattern. -/
def freshmanGeneralResult : String × String × String :=
  ("freshman_dream",
   "展開平方時中間的 2ab 被拿掉了，再檢查一次完整的二項式定理。",
   "持續出現 Freshman\x27s Dream：請寫出 (u+v)^2 = u^2 + 2uv + v^2 並檢驗各項次。")

/-- The triple returned by the sympy cross-term fallback. -/
def freshmanFallbackResult : String × String × String :=
  ("freshman_dream",
   "好像少了混合項 2ab，試著完整展開後檢查每一項。",
   "多次缺少混合項：請逐步展開並明確寫出 2·(第一項)·(第二項) 的來源。")

/-- Neutral hint returned when nothing is detected. -/
def NEUTRAL_HINT : String :=
  "目前未偵測到特定迷思，請繼續嘗試或提供更多步驟。"

/-- Hint returned when sympy finds the two sides unequal. -/
def UNEQUAL_HINT : String :=
  "等式兩側似乎不相等，嘗試重新推導並檢查是否有省略或符號錯置。"

/-- Capability model of the optional sympy collaborator, at the boundary
where `main.py` calls it.  `crossTermHit l r` abstracts the whole
`try`-block of `hint_freshman_dream`'s symbolic fallback on the raw
halves `l`, `r` of the input (`true` = a coefficient-2 multi-variable
term was found; exceptions and no-term both yield `false`).
`sidesNotEqual l r` abstracts `analyze_expression`'s simplify-and-compare
`try`-block: `none` = an exception was raised (and swallowed),
`some b` = `not sp.Eq(left, right)` evaluated to `b`. -/
structure Sympy where
  crossTermHit : List Nat → List Nat → Bool
  sidesNotEqual : List Nat → List Nat → Option Bool

/-- The sympy fallback block at the end of `hint_freshman_dream`:
requires the collaborator, an `=` in the raw expression, and a
cross-term hit. -/
def sympyFallback (sy : Option Sympy) (expr : String) :
    Option (String × String × String) :=
  match sy with
  | none => none
  | some s =>
    match splitEq (strN expr) with
    | none => none
    | some (l, r) =>
      if s.crossTermHit l r then some freshmanFallbackResult else none

/-- Embeds `hint_power_rule` from `main.py` (the source's local
`compact` is inlined).  The comparison `n_left - 1 == n_right` is Python
integer arithmetic, hence taken in `ℤ`. -/
def hint_power_rule (expr : String) : Option (String × String × String) :=
  if specificPower (normalize (strN expr)) then some powerSpecificResult
  else
    match parseGeneralPower (normalize (strN expr)) with
    | some (nl, nr) =>
      if (nl : Int) - 1 = (nr : Int) ∧ nl ≠ 1 then some powerGeneralResult
      else none
    | none => none

/-- Embeds `hint_freshman_dream` from `main.py` (the source's local
`compact` is inlined).  Note the source falls through to the sympy
fallback both when the generalized regex does not match and when it
matches with mismatched symbol pairs. -/
def hint_freshman_dream (sy : Option Sympy) (expr : String) :
    Option (String × String × String) :=
  if normalize (strN expr) = strN "(a+b)^2=a^2+b^2" then some freshmanLiteralResult
  else
    match parseGeneralBinom (normalize (strN expr)) with
    | some (u, v, p, q) =>
      if sort2 u v = sort2 p q then some freshmanGeneralResult
      else sympyFallback sy expr
    | none => sympyFallback sy expr

/-- Embeds the `InteractionLog` state: `last_rule` and `streak`. -/
structure InteractionLog where
  last_rule : Option String
  streak : Nat
deriving DecidableEq, Repr

/-- The state built by `InteractionLog.__init__`. -/
def InteractionLog.init : InteractionLog :=
  ⟨none, 0⟩

/-- Embeds `InteractionLog.record`: returns the resulting streak and the
updated state. -/
def InteractionLog.record (log : InteractionLog) (rule_id : String) :
    Nat × InteractionLog :=
  if log.last_rule = some rule_id then
    (log.streak + 1, { log with streak := log.streak + 1 })
  else
    (1, { last_rule := some rule_id, streak := 1 })

/-- Embeds `InteractionLog.reset`. -/
def InteractionLog.reset (_log : InteractionLog) : InteractionLog :=
  ⟨none, 0⟩

/-- One mutation of the interaction log, recorded where the source calls
the corresponding method. -/
inductive LogOp where
  | record (rule_id : String)
  | reset
deriving DecidableEq, Repr

/-- Embeds the `PEDAGOGICAL_GRAPH_NODES` tuple: the ordered detector
list. -/
def PEDAGOGICAL_GRAPH_NODES (sy : Option Sympy) :
    List (String → Option (String × String × String)) :=
  [hint_power_rule, hint_freshman_dream sy]

/-- First-match-wins iteration over the detector list, as the `for`
loop in `analyze_expression`. -/
def firstDetection :
    List (String → Option (String × String × String)) → String →
    Option (String × String × String)
  | [], _ => none
  | d :: ds, e =>
    match d e with
    | some r => some r
    | none => firstDetection ds e

/-- The equivalence-check step of `analyze_expression`: `true` iff sympy
is available, the raw expression contains `=`, and
`not sp.Eq(left, right)` evaluates to true without an exception (the
source returns the unequal hint exactly in that case; exceptions are
swallowed). -/
def equivalenceCheckStep (sy : Option Sympy) (expr : String) : Bool :=
  match sy with
  | none => false
  | some s =>
    match splitEq (strN expr) with
    | none => false
    | some (l, r) =>
      match s.sidesNotEqual l r with
      | some true => true
      | _ => false

/-- Embeds `analyze_expression` from `main.py`.  Returns the hint, the
updated log state, and the list of log mutations performed (the source
performs exactly one per call: `record` on a match, `reset` otherwise).
All other program state is untouched: the embedding is a pure function
of `(sy, expr, log)`. -/
def analyze_expression (sy : Option Sympy) (expr : String)
    (log : InteractionLog) : String × InteractionLog × List LogOp :=
  match firstDetection (PEDAGOGICAL_GRAPH_NODES sy) expr with
  | some (rule_id, base_hint, escalated_hint) =>
    let res := log.record rule_id
    (if 2 ≤ res.1 then escalated_hint else base_hint, res.2,
     [LogOp.record rule_id])
  | none =>
    (if equivalenceCheckStep sy expr then UNEQUAL_HINT else NEUTRAL_HINT,
     log.reset, [LogOp.reset])

/-- The invariant of the `InteractionLog` state machine: `streak >= 1`
when a rule is active, `streak == 0` when idle. -/
def InvLog (log : InteractionLog) : Prop :=
  (log.last_rule ≠ none → 1 ≤ log.streak) ∧
  (log.last_rule = none → log.streak = 0)

instance (log : InteractionLog) : Decidable (InvLog log) := by
  unfold InvLog; infer_instance

/-! ### Spec model of the external Equivalence Checker's fallback

The sympy library is not part of the repository, so the cross-term
heuristic it powers is reconstructed from the spec's description:
split at `=`, expand both sides, take the difference; if the difference
is a polynomial in two or more free symbols containing a term whose
numeric coefficient is exactly 2 spanning two or more variables, the
misconception is flagged.  Polynomials are integer linear combinations
of monomials; a monomial is a `lexLt`-sorted list of variable names
(with repetition), so structurally equal monomials are equal terms. -/

/-- A variable name: the code points of an identifier. -/
abbrev Var := List Nat

/-- A monomial: the multiset of its variables as a sorted list. -/
abbrev Mono := List Var

/-- A polynomial in normal form: coefficient-monomial pairs with no
zero coefficient and no repeated monomial. -/
abbrev Poly := List (Int × Mono)

/-- Insert a variable into a sorted monomial. -/
def insertVar (v : Var) : Mono → Mono
  | [] => [v]
  | w :: ws => if lexLt v w then v :: w :: ws else w :: insertVar v ws

/-- Product of two monomials: merge of sorted variable lists. -/
def monoMul (m1 m2 : Mono) : Mono :=
  m2.foldl (fun acc v => insertVar v acc) m1

/-- Add one term to a polynomial, combining like monomials and
dropping zeros. -/
def addTerm : Poly → Int × Mono → Poly
  | [], t => if t.1 = 0 then [] else [t]
  | (c, m) :: rest, (c2, m2) =>
    if m = m2 then
      if c + c2 = 0 then rest else (c + c2, m) :: rest
    else (c, m) :: addTerm rest (c2, m2)

/-- Polynomial addition. -/
def polyAdd (p q : Poly) : Poly :=
  q.foldl addTerm p

/-- Polynomial negation. -/
def polyNeg (p : Poly) : Poly :=
  p.map (fun t => (-t.1, t.2))

/-- Polynomial subtraction. -/
def polySub (p q : Poly) : Poly :=
  polyAdd p (polyNeg q)

/-- Polynomial multiplication. -/
def polyMul (p q : Poly) : Poly :=
  p.foldl
    (fun acc t1 =>
      q.foldl
        (fun acc2 t2 => addTerm acc2 (t1.1 * t2.1, monoMul t1.2 t2.2))
        acc)
    []

/-- The constant polynomial. -/
def constPoly (k : Int) : Poly :=
  if k = 0 then [] else [(k, [])]

/-- The single-variable polynomial. -/
def varPoly (x : Var) : Poly :=
  [(1, [x])]

/-- Polynomial power by repeated multiplication (expansion). -/
def polyPow (p : Poly) : Nat → Poly
  | 0 => constPoly 1
  | n + 1 => polyMul p (polyPow p n)

/-- Drop leading spaces of an expression half. -/
def skipSpaces (s : List Nat) : List Nat :=
  s.dropWhile (fun c => c = 32)

mutual

/-- Parse a sum: optional leading sign, then terms joined by `+`/`-`. -/
def parseExpr : Nat → List Nat → Option (Poly × List Nat)
  | 0, _ => none
  | fuel + 1, s =>
    match skipSpaces s with
    | 45 :: rest =>
      match parseTerm fuel rest with
      | some (p, s2) => parseSumRest fuel (polyNeg p) s2
      | none => none
    | 43 :: rest =>
      match parseTerm fuel rest with
      | some (p, s2) => parseSumRest fuel p s2
      | none => none
    | s1 =>
      match parseTerm fuel s1 with
      | some (p, s2) => parseSumRest fuel p s2
      | none => none

/-- Parse the remaining `+ term` / `- term` tail of a sum. -/
def parseSumRest : Nat → Poly → List Nat → Option (Poly × List Nat)
  | 0, _, _ => none
  | fuel + 1, acc, s =>
    match skipSpaces s with
    | 43 :: rest =>
      match parseTerm fuel rest with
      | some (p, s2) => parseSumRest fuel (polyAdd acc p) s2
      | none => none
    | 45 :: rest =>
      match parseTerm fuel rest with
      | some (p, s2) => parseSumRest fuel (polySub acc p) s2
      | none => none
    | s1 => some (acc, s1)

/-- Parse a product of factors joined by `*`. -/
def parseTerm : Nat → List Nat → Option (Poly × List Nat)
  | 0, _ => none
  | fuel + 1, s =>
    match parseFactor fuel s with
    | some (p, s2) => parseProdRest fuel p s2
    | none => none

/-- Parse the remaining `* factor` tail of a product. -/
def parseProdRest : Nat → Poly → List Nat → Option (Poly × List Nat)
  | 0, _, _ => none
  | fuel + 1, acc, s =>
    match skipSpaces s with
    | 42 :: rest =>
      match parseFactor fuel rest with
      | some (p, s2) => parseProdRest fuel (polyMul acc p) s2
      | none => none
    | s1 => some (acc, s1)

/-- Parse an atom with an optional `^`-power. -/
def parseFactor : Nat → List Nat → Option (Poly × List Nat)
  | 0, _ => none
  | fuel + 1, s =>
    match parseAtom fuel s with
    | some (p, s2) =>
      match skipSpaces s2 with
      | 94 :: rest =>
        let rest2 := skipSpaces rest
        let ds := rest2.takeWhile (fun c => isDigitCode c)
        if ds = [] then none
        else
          some (polyPow p (natOfDigits ds),
                rest2.dropWhile (fun c => isDigitCode c))
      | s3 => some (p, s3)
    | none => none

/-- Parse an identifier, an integer literal, or a parenthesized sum. -/
def parseAtom : Nat → List Nat → Option (Poly × List Nat)
  | 0, _ => none
  | fuel + 1, s =>
    match skipSpaces s with
    | 40 :: rest =>
      match parseExpr fuel rest with
      | some (p, s2) =>
        match skipSpaces s2 with
        | 41 :: rest2 => some (p, rest2)
        | _ => none
      | none => none
    | s1 =>
      let ds := s1.takeWhile (fun c => isDigitCode c)
      if ds ≠ [] then
        some (constPoly (natOfDigits ds),
              s1.dropWhile (fun c => isDigitCode c))
      else
        let nm := s1.takeWhile (fun c => isLowerAlphaCode c)
        if nm ≠ [] then
          some (varPoly nm, s1.dropWhile (fun c => isLowerAlphaCode c))
        else none

end

/-- Parse one half of an equation into an expanded polynomial; `none`
models a swallowed parse failure. -/
def parsePoly (s : List Nat) : Option Poly :=
  match parseExpr (8 * (s.length + 1)) s with
  | some (p, rest) => if skipSpaces rest = [] then some p else none
  | none => none

/-- The distinct free symbols of a polynomial. -/
def freeSymbols (p : Poly) : List Var :=
  (p.foldl (fun acc t => acc ++ t.2) []).dedup

/-- Modelled from the spec: the Equivalence Checker's cross-term
heuristic (missing from `src/`, sympy being an external collaborator).
Expand both halves, take the difference; flag iff the sides differ, the
difference has at least two free symbols, and some term has numeric
coefficient exactly 2 and spans at least two distinct variables. -/
def specCrossTermHit (l r : List Nat) : Bool :=
  match parsePoly l, parsePoly r with
  | some pl, some pr =>
    let d := polySub pl pr
    if d = [] then false
    else
      decide (2 ≤ (freeSymbols d).length) &&
      d.any (fun t => decide (t.1 = 2 ∧ 2 ≤ t.2.dedup.length))
  | _, _ => false

/-- Modelled from the spec: an available Equivalence Checker whose
cross-term heuristic behaves as spec section 4.2 describes (the
simplify-and-compare capability is irrelevant to the freshman-dream
detector and left permanently failing). -/
def specSympy : Sympy :=
  ⟨specCrossTermHit, fun _ _ => none⟩

/-! ### Helper lemmas -/

theorem pyLower_pyLower (c : Nat) : pyLower (pyLower c) = pyLower c := by
  by_cases h : 65 ≤ c ∧ c ≤ 90
  · simp only [pyLower, if_pos h]
    rw [if_neg (by omega)]
  · simp only [pyLower, if_neg h]

theorem pyLower_ne_space (c : Nat) (h : c ≠ 32) : pyLower c ≠ 32 := by
  unfold pyLower; split <;> omega

theorem pyLower_not_upper (c : Nat) : ¬ (65 ≤ pyLower c ∧ pyLower c ≤ 90) := by
  unfold pyLower; split <;> omega

theorem sort2_eq_pair (u v p q : List Nat) (h : sort2 u v = sort2 p q) :
    (u = p ∧ v = q) ∨ (u = q ∧ v = p) := by
  unfold sort2 at h
  split at h <;> split at h <;>
    simp only [Prod.mk.injEq] at h <;> tauto

theorem analyze_matched (sy : Option Sympy) (expr : String)
    (log : InteractionLog) (rid base esc : String)
    (hdet : firstDetection (PEDAGOGICAL_GRAPH_NODES sy) expr
      = some (rid, base, esc)) :
    analyze_expression sy expr log =
      (if 2 ≤ (log.record rid).1 then esc else base, (log.record rid).2,
       [LogOp.record rid]) := by
  unfold analyze_expression
  rw [hdet]

theorem analyze_unmatched (sy : Option Sympy) (expr : String)
    (log : InteractionLog)
    (hdet : firstDetection (PEDAGOGICAL_GRAPH_NODES sy) expr = none) :
    analyze_expression sy expr log =
      (if equivalenceCheckStep sy expr then UNEQUAL_HINT else NEUTRAL_HINT,
       log.reset, [LogOp.reset]) := by
  unfold analyze_expression
  rw [hdet]

/-! ### Claim theorems -/

/-- Claim C2: `record` in state `active(r, n)` yields `active(r, n+1)`
returning `n+1`; in any other state it yields `active(r, 1)` returning
`1`; over consecutive calls with a fixed rule id the returned streak
increases by exactly 1. -/
theorem record_transitions :
    (∀ (r : String) (n : Nat),
        InteractionLog.record ⟨some r, n⟩ r = (n + 1, ⟨some r, n + 1⟩)) ∧
    (∀ (r : String) (log : InteractionLog), log.last_rule ≠ some r →
        log.record r = (1, ⟨some r, 1⟩)) ∧
    (∀ (r : String) (log : InteractionLog),
        ((log.record r).2.record r).1 = (log.record r).1 + 1) := by
  refine ⟨?_, ?_, ?_⟩
  · intro r n
    simp [InteractionLog.record]
  · intro r log h
    simp [InteractionLog.record, h]
  · intro r log
    by_cases h : log.last_rule = some r <;>
      simp [InteractionLog.record, h]

/-- Witness for C2 at concrete states. -/
theorem record_transitions_witness :
    InteractionLog.record ⟨some "freshman_dream", 4⟩ "freshman_dream"
      = (5, ⟨some "freshman_dream", 5⟩) ∧
    InteractionLog.record ⟨none, 0⟩ "freshman_dream"
      = (1, ⟨some "freshman_dream", 1⟩) ∧
    ((InteractionLog.record ⟨none, 0⟩ "freshman_dream").2.record
        "freshman_dream").1
      = (InteractionLog.record ⟨none, 0⟩ "freshman_dream").1 + 1 :=
  ⟨record_transitions.1 "freshman_dream" 4,
   record_transitions.2.1 "freshman_dream" ⟨none, 0⟩ (by decide),
   record_transitions.2.2 "freshman_dream" ⟨none, 0⟩⟩

/-- Claim C3: the `InteractionLog` invariant (`streak >= 1` iff a rule is
active, `streak == 0` otherwise) holds initially and is preserved by
`record` (for every rule id) and by `reset`. -/
theorem interaction_log_invariant :
    InvLog InteractionLog.init ∧
    (∀ (log : InteractionLog) (r : String),
        InvLog log → InvLog (log.record r).2) ∧
    (∀ log : InteractionLog, InvLog log.reset) := by
  refine ⟨by decide, ?_, ?_⟩
  · intro log r _
    by_cases h : log.last_rule = some r <;>
      simp [InteractionLog.record, h, InvLog]
  · intro log
    simp [InteractionLog.reset, InvLog]

/-- Witness for C3: preservation at a concrete active state under a
rule switch. -/
theorem interaction_log_invariant_witness :
    InvLog ((InteractionLog.record ⟨some "freshman_dream", 2⟩
      "power_rule_missing_coefficient").2) :=
  interaction_log_invariant.2.1 ⟨some "freshman_dream", 2⟩
    "power_rule_missing_coefficient" (by decide)

/-- Claim C4 counterexample: `normalize` keeps the tab character, which
is a whitespace character, so "removes all whitespace characters
(including tabs)" fails on the input `"a\tb"`. -/
theorem normalize_whitespace_counterexample :
    9 ∈ normalize (strN "a\tb") ∧ isWhitespaceCode 9 = true := by
  decide

/-- Claim C4 (amended): `normalize` removes all space characters
(U+0020) and lowercases letters: the result contains no space and no
uppercase letter.  Determinism, totality and freedom from side effects
hold by construction (it is a function of the input text alone). -/
theorem normalize_no_space_no_upper (s : List Nat) (c : Nat)
    (h : c ∈ normalize s) : c ≠ 32 ∧ ¬ (65 ≤ c ∧ c ≤ 90) := by
  unfold normalize at h
  rcases List.mem_map.mp h with ⟨a, ha, rfl⟩
  have ha' := List.mem_filter.mp ha
  refine ⟨pyLower_ne_space a ?_, pyLower_not_upper a⟩
  simpa using ha'.2

/-- Witness for the amended C4 at a concrete input. -/
theorem normalize_no_space_no_upper_witness :
    97 ∈ normalize (strN "A b") ∧ (97 ≠ 32 ∧ ¬ (65 ≤ 97 ∧ 97 ≤ 90)) :=
  ⟨by decide, normalize_no_space_no_upper (strN "A b") 97 (by decide)⟩

/-- Claim C9: `normalize` is idempotent. -/
theorem normalize_idem (s : List Nat) :
    normalize (normalize s) = normalize s := by
  induction s with
  | nil => rfl
  | cons c t ih =>
    by_cases h : c = 32
    · subst h
      have h32 : normalize (32 :: t) = normalize t := by
        simp [normalize, List.filter_cons]
      rw [h32, ih]
    · have hcons : normalize (c :: t) = pyLower c :: normalize t := by
        simp [normalize, List.filter_cons, h]
      have hcons2 : normalize (pyLower c :: normalize t)
          = pyLower (pyLower c) :: normalize (normalize t) := by
        simp [normalize, List.filter_cons, pyLower_ne_space c h]
      rw [hcons, hcons2, ih, pyLower_pyLower]

/-- Claim C10: in the specific power-rule pattern the opening
parenthesis, caret and closing parenthesis are each independently
optional, so the three unbalanced/caret-less variants are all flagged
with the specific pattern's rule id and hint texts. -/
theorem power_specific_optional_punctuation :
    hint_power_rule "d/dx(x^2=x" = some powerSpecificResult ∧
    hint_power_rule "d/dxx^2)=x" = some powerSpecificResult ∧
    hint_power_rule "d/dxx2=x" = some powerSpecificResult ∧
    powerSpecificResult.1 = "power_rule_missing_coefficient" :=
  ⟨rfl, rfl, rfl, rfl⟩

/-- Claim C1: whenever a detector matches, `analyze_expression` returns
the escalated hint exactly when the streak returned by `record` for
that call is at least 2, and the base hint otherwise. -/
theorem escalation_threshold (sy : Option Sympy) (expr : String)
    (log : InteractionLog) (rid base esc : String)
    (hdet : firstDetection (PEDAGOGICAL_GRAPH_NODES sy) expr
      = some (rid, base, esc)) :
    (2 ≤ (log.record rid).1 → (analyze_expression sy expr log).1 = esc) ∧
    ((log.record rid).1 < 2 → (analyze_expression sy expr log).1 = base) := by
  rw [analyze_matched sy expr log rid base esc hdet]
  constructor
  · intro h
    exact if_pos h
  · intro h
    exact if_neg (by omega)

/-- Witness for C1: the first specific power-rule detection on a fresh
log has streak 1, hence the base hint is returned. -/
theorem escalation_threshold_witness :
    (InteractionLog.init.record powerSpecificResult.1).1 < 2 ∧
    (analyze_expression none "d/dx(x^2)=x" InteractionLog.init).1
      = powerSpecificResult.2.1 :=
  ⟨by decide,
   (escalation_threshold none "d/dx(x^2)=x" InteractionLog.init
      powerSpecificResult.1 powerSpecificResult.2.1
      powerSpecificResult.2.2 rfl).2 (by decide)⟩

/-- Claim C5 (amended): the freshman-dream detector's textual patterns
fire only via the literal pattern or via the generalized pattern with
equal unordered symbol pairs; on `"(a+c)^2 = a^2+b^2"` neither textual
pattern fires — for any checker the result is exactly the external
fallback's — so with the checker absent there is no detection.  (With
the checker available the fallback does flag this input; see the
counterexample to the unamended claim.) -/
theorem freshman_symbol_guard :
    (∀ (expr : String) (r : String × String × String),
        hint_freshman_dream none expr = some r →
        normalize (strN expr) = strN "(a+b)^2=a^2+b^2" ∨
        ∃ u v p q,
          parseGeneralBinom (normalize (strN expr)) = some (u, v, p, q) ∧
          ((u = p ∧ v = q) ∨ (u = q ∧ v = p))) ∧
    (∀ sy : Option Sympy,
        hint_freshman_dream sy "(a+c)^2 = a^2+b^2"
          = sympyFallback sy "(a+c)^2 = a^2+b^2") ∧
    hint_freshman_dream none "(a+c)^2 = a^2+b^2" = none := by
  refine ⟨?_, fun sy => rfl, rfl⟩
  intro expr r h
  unfold hint_freshman_dream at h
  split at h
  · left; assumption
  · right
    split at h
    · rename_i u v p q heq
      split at h
      · rename_i hs
        exact ⟨u, v, p, q, heq, sort2_eq_pair u v p q hs⟩
      · exact absurd h (by simp [sympyFallback])
    · exact absurd h (by simp [sympyFallback])

/-- Witness for C5: a generalized-pattern detection with the symbol
pair reversed on the right-hand side. -/
theorem freshman_symbol_guard_witness :
    hint_freshman_dream none "(u+v)^2=v^2+u^2" = some freshmanGeneralResult ∧
    (normalize (strN "(u+v)^2=v^2+u^2") = strN "(a+b)^2=a^2+b^2" ∨
     ∃ u v p q,
       parseGeneralBinom (normalize (strN "(u+v)^2=v^2+u^2"))
         = some (u, v, p, q) ∧
       ((u = p ∧ v = q) ∨ (u = q ∧ v = p))) :=
  ⟨rfl, freshman_symbol_guard.1 "(u+v)^2=v^2+u^2" freshmanGeneralResult rfl⟩

/-- Claim C5 counterexample: with the Equivalence Checker available
(modelled from the spec), `hint_freshman_dream` does flag
`"(a+c)^2 = a^2+b^2"` as the `freshman_dream` misconception via the
symbolic fallback — the expanded difference `2ac + c^2 - b^2` contains
the coefficient-2 cross term `2ac` — refuting the claim's unconditional
"returns no detection". -/
theorem freshman_fallback_counterexample :
    hint_freshman_dream (some specSympy) "(a+c)^2 = a^2+b^2"
      = some freshmanFallbackResult ∧
    freshmanFallbackResult.1 = "freshman_dream" :=
  ⟨rfl, rfl⟩

/-- Claim C6: when the specific pattern does not match, the general
power-rule pattern produces a detection only when `N - 1 == M` (in ℤ)
and `N != 1`; in particular `"d/dx(x^1) = x^0"` yields no detection. -/
theorem power_general_guard :
    (∀ (expr : String) (n m : Nat) (r : String × String × String),
        specificPower (normalize (strN expr)) = false →
        parseGeneralPower (normalize (strN expr)) = some (n, m) →
        hint_power_rule expr = some r →
        (n : Int) - 1 = (m : Int) ∧ n ≠ 1) ∧
    hint_power_rule "d/dx(x^1) = x^0" = none := by
  refine ⟨?_, rfl⟩
  intro expr n m r hspec hparse h
  unfold hint_power_rule at h
  rw [if_neg (by simp [hspec]), hparse] at h
  split at h
  · rename_i nl nr heq
    obtain ⟨rfl, rfl⟩ := Prod.mk.inj (Option.some.inj heq)
    split at h
    · assumption
    · exact Option.noConfusion h
  · rename_i heq
    exact Option.noConfusion heq

/-- Witness for C6: the generalized detection at `N = 3`, `M = 2`. -/
theorem power_general_guard_witness :
    hint_power_rule "d/dx(x^3)=x^2" = some powerGeneralResult ∧
    ((3 : Int) - 1 = (2 : Int) ∧ (3 : Nat) ≠ 1) :=
  ⟨rfl,
   power_general_guard.1 "d/dx(x^3)=x^2" 3 2 powerGeneralResult
     rfl rfl rfl⟩

/-- Claim C7: when no detector matches, a checker failure (swallowed
exception) or an absent checker never propagates: `analyze_expression`
returns the neutral hint with the log reset (the embedding is a total
function, so no exception escapes). -/
theorem checker_failure_swallowed (sy : Option Sympy) (expr : String)
    (log : InteractionLog)
    (hdet : firstDetection (PEDAGOGICAL_GRAPH_NODES sy) expr = none) :
    (sy = none →
      analyze_expression sy expr log
        = (NEUTRAL_HINT, log.reset, [LogOp.reset])) ∧
    (∀ (s : Sympy) (l r : List Nat), sy = some s →
      splitEq (strN expr) = some (l, r) → s.sidesNotEqual l r = none →
      analyze_expression sy expr log
        = (NEUTRAL_HINT, log.reset, [LogOp.reset])) := by
  constructor
  · intro hsy
    subst hsy
    rw [analyze_unmatched none expr log hdet]
    rfl
  · intro s l r hsy hsplit hfail
    subst hsy
    have hstep : equivalenceCheckStep (some s) expr = false := by
      unfold equivalenceCheckStep
      rw [hsplit]
      simp [hfail]
    rw [analyze_unmatched (some s) expr log hdet, hstep]
    rfl

/-- Witness for C7: a failing checker on `"1=2"` (which no detector
matches) yields the neutral hint and a reset log. -/
theorem checker_failure_swallowed_witness :
    analyze_expression (some ⟨fun _ _ => false, fun _ _ => none⟩) "1=2"
        ⟨some "freshman_dream", 3⟩
      = (NEUTRAL_HINT, InteractionLog.reset ⟨some "freshman_dream", 3⟩,
         [LogOp.reset]) :=
  (checker_failure_swallowed (some ⟨fun _ _ => false, fun _ _ => none⟩)
      "1=2" ⟨some "freshman_dream", 3⟩ rfl).2
    ⟨fun _ _ => false, fun _ _ => none⟩ (strN "1") (strN "2")
    rfl rfl rfl

/-- Claim C8: every `analyze_expression` call performs exactly one log
mutation: one `record` with the matched rule id, or one `reset` when no
detector matched; the resulting state is exactly that mutation's result
and (the embedding being a pure function of its arguments) nothing else
changes. -/
theorem analyze_single_mutation (sy : Option Sympy) (expr : String)
    (log : InteractionLog) :
    (∃ rid base esc,
        firstDetection (PEDAGOGICAL_GRAPH_NODES sy) expr
          = some (rid, base, esc) ∧
        (analyze_expression sy expr log).2.2 = [LogOp.record rid] ∧
        (analyze_expression sy expr log).2.1 = (log.record rid).2) ∨
    (firstDetection (PEDAGOGICAL_GRAPH_NODES sy) expr = none ∧
        (analyze_expression sy expr log).2.2 = [LogOp.reset] ∧
        (analyze_expression sy expr log).2.1 = log.reset) := by
  cases hdet : firstDetection (PEDAGOGICAL_GRAPH_NODES sy) expr with
  | some r =>
    obtain ⟨rid, base, esc⟩ := r
    left
    refine ⟨rid, base, esc, rfl, ?_, ?_⟩ <;>
      rw [analyze_matched sy expr log rid base esc hdet]
  | none =>
    right
    refine ⟨rfl, ?_, ?_⟩ <;>
      rw [analyze_unmatched sy expr log hdet]

end DiagnosticTutor
